import Mathlib

/-! Verification of the mcp-swagger-cli specification interpreter.

A shallow embedding of the core of `mcp_swagger_cli` (the OpenAPI/Swagger
specification interpreter) in Lean 4, together with theorems settling the
frozen claims about it.

The embedding models Python's untyped JSON document trees with the `JValue`
inductive; Python dictionaries become association lists preserving insertion
order, `dict.get(k, d)` becomes `dgetD`, Python truthiness becomes
`isTruthy`, and the functions of `parser.py` and `generator.py` are
translated definition-by-definition.
-/

/-- A JSON-like value, modelling the untyped document trees the Python code
manipulates.  Objects are association lists in insertion order (Python dicts
preserve insertion order and have no duplicate keys). -/
inductive JValue where
  | null : JValue
  | bool : Bool → JValue
  | str : String → JValue
  | num : Int → JValue
  | arr : List JValue → JValue
  | obj : List (String × JValue) → JValue

namespace JValue

/-- First-match lookup in an association list (Python dicts have unique keys,
so first-match agrees with dict lookup). -/
def lookupField : List (String × JValue) → String → Option JValue
  | [], _ => none
  | (k, v) :: rest, k2 => if k = k2 then some v else lookupField rest k2

/-- Python `d.get(k)` on a dict: `some v` when the key is present, `none`
otherwise (i.e. Python `None`).  On a non-dict the model returns `none`
(the Python source never calls `.get` on a non-dict on the paths modelled
here). -/
def dget : JValue → String → Option JValue
  | .obj fields, k => lookupField fields k
  | _, _ => none

/-- Python `d.get(k, default)` on a dict. -/
def dgetD (j : JValue) (k : String) (d : JValue) : JValue :=
  (dget j k).getD d

/-- Python `k in d` on a dict: key membership. -/
def hasKey (j : JValue) (k : String) : Bool :=
  (dget j k).isSome

/-- Python truthiness of a JSON value: `None`, `False`, `""`, `0`, `[]` and
`` \x7b\x7d `` are falsy, everything else is truthy. -/
def isTruthy : JValue → Bool
  | .null => false
  | .bool b => b
  | .str s => !s.isEmpty
  | .num n => n != 0
  | .arr xs => !xs.isEmpty
  | .obj fs => !fs.isEmpty

/-- The list of elements of a JSON array (Python list), `[]` otherwise. -/
def asArr : JValue → List JValue
  | .arr xs => xs
  | _ => []

/-- The fields of a JSON object (Python dict), `[]` otherwise. -/
def objFields : JValue → List (String × JValue)
  | .obj fs => fs
  | _ => []

/-- Python `lst[0]` on a nonempty list (callers guard on truthiness). -/
def headArr : JValue → JValue
  | .arr (x :: _) => x
  | _ => .null

/-- Python dict update `d[k] = v` (as performed by `\x7b**d, k: v\x7d`):
replace the value at `k` in place when present, append the key otherwise. -/
def setField : List (String × JValue) → String → JValue → List (String × JValue)
  | [], k, v => [(k, v)]
  | (k1, w) :: rest, k, v =>
    if k1 = k then (k, v) :: rest else (k1, w) :: setField rest k v

/-- Python `\x7b**a, "k": v\x7d` on an object. -/
def setKey (j : JValue) (k : String) (v : JValue) : JValue :=
  match j with
  | .obj fs => .obj (setField fs k v)
  | _ => j

/-- Python `\x7b**a, **b\x7d` on two objects: `a`'s insertion order, with values
overridden by `b` and `b`-only keys appended. -/
def mergeObj (a b : JValue) : JValue :=
  match a, b with
  | .obj fa, .obj fb => .obj (fb.foldl (fun acc kv => setField acc kv.1 kv.2) fa)
  | _, _ => a

/-- Python `del d[k]` on an object. -/
def delKey (j : JValue) (k : String) : JValue :=
  match j with
  | .obj fs => .obj (fs.filter (fun kv => kv.1 ≠ k))
  | _ => j

end JValue

/-- Python `s.startswith(pre)`. -/
def pyStartsWith (s pre : String) : Bool :=
  pre.data.isPrefixOf s.data

/-- Python `s.upper()` (ASCII, which is all the source applies it to). -/
def pyUpper (s : String) : String :=
  String.mk (s.data.map Char.toUpper)

/-- Python `s.strip("/")`: remove leading and trailing `/` characters. -/
def stripSlashes (s : String) : String :=
  String.mk (((s.data.dropWhile (· == '/')).reverse.dropWhile (· == '/')).reverse)

/-- Python `s.replace(a, b)` for one-character `a` and `b` (character-wise). -/
def replaceChar (a b : Char) (s : String) : String :=
  String.mk (s.data.map (fun c => if c == a then b else c))

/-- Python `s.replace(a, "")` for a one-character `a` (character-wise). -/
def removeChar (a : Char) (s : String) : String :=
  String.mk (s.data.filter (fun c => c ≠ a))

/-- Python `s.split("/")` on the underlying character list: split on every
`/`, keeping empty segments (so `"a/b/".split("/") = ["a", "b", ""]`). -/
def splitSlash : List Char → List (List Char)
  | [] => [[]]
  | c :: rest =>
    match splitSlash rest with
    | [] => [[]]
    | g :: gs => if c = '/' then [] :: g :: gs else (c :: g) :: gs

/-- Python `ref.split("/")[-1]`: the last `/`-separated segment. -/
def refLastSegment (ref : String) : String :=
  String.mk ((splitSlash ref.data).getLastD [])

/-! Embedding of `parser.py` (class `OpenAPIParser`).

The parser holds the loaded document in `self._spec`; every method below
takes that document as its first argument `spec`. -/

open JValue

/-- The string value of `schema.get("$ref", "")` (the source only ever
stores strings under `$ref`; a non-string value would raise in Python
before any branch below is taken). -/
def refString (j : JValue) : String :=
  match dget j "$ref" with
  | some (.str s) => s
  | _ => ""

/-- Embedding of `OpenAPIParser._resolve_schema_ref`: resolve a `$ref` to a schema
definition, looking in `components.schemas` (3.x) or `definitions` (2.0);
any other pointer form, or a missing target, returns the original fragment. -/
def resolveSchemaRef (spec schema : JValue) : JValue :=
  let ref := refString schema
  if ref = "" then schema
  else if pyStartsWith ref "#/components/schemas/" then
    dgetD (dgetD (dgetD spec "components" (.obj [])) "schemas" (.obj []))
      (refLastSegment ref) schema
  else if pyStartsWith ref "#/definitions/" then
    dgetD (dgetD spec "definitions" (.obj [])) (refLastSegment ref) schema
  else schema

/-- Embedding of `OpenAPIParser._resolve_parameter_ref`: resolve a `$ref` to a parameter
definition in `components.parameters` (3.x) or top-level `parameters` (2.0). -/
def resolveParameterRef (spec param : JValue) : JValue :=
  let ref := refString param
  if ref = "" then param
  else if pyStartsWith ref "#/components/parameters/" then
    dgetD (dgetD (dgetD spec "components" (.obj [])) "parameters" (.obj []))
      (refLastSegment ref) param
  else if pyStartsWith ref "#/parameters/" then
    dgetD (dgetD spec "parameters" (.obj [])) (refLastSegment ref) param
  else param

/-- The synthesized operation id of `get_operations` when `operationId` is
falsy: `method.upper()` + `"_"` + the path with leading/trailing slashes
stripped, `/` and `-` replaced by `_`, and braces removed. -/
def synthOperationId (method path : String) : String :=
  pyUpper method ++ "_" ++
    removeChar '}' (removeChar '{'
      (replaceChar '-' '_' (replaceChar '/' '_' (stripSlashes path))))

/-- One entry of the `params_list` built by `get_operations` (a canonical
parameter).  Fields keep the dictionary keys of the source; `paramIn` is the
`"in"` key.  `JValue.null` stands for Python `None`. -/
structure CanonParam where
  name : JValue
  paramIn : JValue
  required : JValue
  type : JValue
  description : JValue
  defaultVal : JValue
  enumVal : JValue

/-- Test `param.get("in") == "body"`: the 2.0 body-parameter test of
`get_operations`. -/
def isBodyParam (p : JValue) : Bool :=
  match dget p "in" with
  | some (.str s) => s == "body"
  | _ => false

/-- The body of the `params_list` loop of `get_operations` (lines 210-248)
for one non-body merged parameter: resolve a parameter-level `$ref`, resolve
a `$ref` inside the parameter's `schema`, flatten `oneOf`/`anyOf` to the
first alternative, then read `type`, `default` and `enum` from the resolved
schema with fallback to the parameter's own top-level fields. -/
def canonicalizeParam (spec param : JValue) : CanonParam :=
  let param1 :=
    if hasKey param "$ref" then
      let r := resolveParameterRef spec param
      if isTruthy r then r else param
    else param
  let schema1 := dgetD param1 "schema" (.obj [])
  let st2 :=
    if hasKey schema1 "$ref" then
      let s := resolveSchemaRef spec schema1
      (setKey param1 "schema" s, s)
    else (param1, schema1)
  let param2 := st2.1
  let schema2 := st2.2
  let st3 :=
    if hasKey schema2 "oneOf" || hasKey schema2 "anyOf" then
      if hasKey schema2 "oneOf" && isTruthy (dgetD schema2 "oneOf" .null) then
        let first0 := headArr (dgetD schema2 "oneOf" .null)
        let first :=
          if hasKey first0 "$ref" then resolveSchemaRef spec first0 else first0
        let s := delKey (mergeObj schema2 first) "oneOf"
        (setKey param2 "schema" s, s)
      else if hasKey schema2 "anyOf" && isTruthy (dgetD schema2 "anyOf" .null) then
        let first0 := headArr (dgetD schema2 "anyOf" .null)
        let first :=
          if hasKey first0 "$ref" then resolveSchemaRef spec first0 else first0
        let s := delKey (mergeObj schema2 first) "anyOf"
        (setKey param2 "schema" s, s)
      else (setKey param2 "schema" schema2, schema2)
    else (param2, schema2)
  let param3 := st3.1
  let schema3 := st3.2
  { name := dgetD param3 "name" .null,
    paramIn := dgetD param3 "in" .null,
    required := dgetD param3 "required" (.bool false),
    type :=
      if isTruthy schema3 then dgetD schema3 "type" (dgetD param3 "type" (.str "string"))
      else dgetD param3 "type" (.str "string"),
    description := dgetD param3 "description" (.str ""),
    defaultVal :=
      if isTruthy schema3 then dgetD schema3 "default" (dgetD param3 "default" .null)
      else dgetD param3 "default" .null,
    enumVal :=
      if isTruthy schema3 then dgetD schema3 "enum" (dgetD param3 "enum" .null)
      else dgetD param3 "enum" .null }

/-- The full `params_list` loop of `get_operations`: body-style parameters
are skipped (`continue`), the rest are canonicalized in order. -/
def canonParamsList (spec : JValue) (params : List JValue) : List CanonParam :=
  params.filterMap (fun p =>
    if isBodyParam p then none else some (canonicalizeParam spec p))

/-- The `request_body` record built by `get_operations`. -/
structure RequestBody where
  required : JValue
  description : JValue
  schema : JValue

/-- Lines 251-265 of `get_operations`: the `request_body` derived from a 3.x
`requestBody` with an `application/json` content entry, its schema
`$ref`-resolved; `none` when `requestBody` or the json content is absent. -/
def requestBodyFromOp (spec op : JValue) : Option RequestBody :=
  match dget op "requestBody" with
  | some rb =>
    match dget (dgetD rb "content" (.obj [])) "application/json" with
    | some jsonContent =>
      let schema0 := dgetD jsonContent "schema" (.obj [])
      let schema :=
        if hasKey schema0 "$ref" then resolveSchemaRef spec schema0 else schema0
      some ⟨dgetD rb "required" (.bool false), dgetD rb "description" (.str ""),
        schema⟩
    | none => none
  | none => none

/-- The `request_body` record built from a 2.0-style body parameter
(lines 268-279 of `get_operations`), its schema `$ref`-resolved. -/
def bodyParamRB (spec p : JValue) : RequestBody :=
  let schema0 := dgetD p "schema" (.obj [])
  let schema :=
    if hasKey schema0 "$ref" then resolveSchemaRef spec schema0 else schema0
  ⟨dgetD p "required" (.bool false), dgetD p "description" (.str ""), schema⟩

/-- Lines 267-279 of `get_operations`: scan the merged parameters and
overwrite `request_body` with the first body-style parameter found,
breaking at the first hit; `rb` is the value `request_body` had before the
loop. -/
def overwriteFromBodyParams (spec : JValue) (params : List JValue)
    (rb : Option RequestBody) : Option RequestBody :=
  match params with
  | [] => rb
  | p :: rest =>
    if isBodyParam p then some (bodyParamRB spec p)
    else overwriteFromBodyParams spec rest rb

/-- The complete `request_body` computation of `get_operations`: the 3.x
`requestBody` block runs first, then the body-parameter loop runs over the
merged parameters and overwrites its result. -/
def computeRequestBody (spec op : JValue) (params : List JValue) :
    Option RequestBody :=
  overwriteFromBodyParams spec params (requestBodyFromOp spec op)

/-- Lines 282-287 of `get_operations`: per status code, the description and
the `application/json` schema of the response (or `None`). -/
def canonResponses (op : JValue) : List (String × JValue × JValue) :=
  (objFields (dgetD op "responses" (.obj []))).map (fun sr =>
    (sr.1, dgetD sr.2 "description" (.str ""),
      dgetD (dgetD (dgetD sr.2 "content" (.obj [])) "application/json" (.obj []))
        "schema" .null))

/-- One canonical operation record as appended by `get_operations`
(lines 292-304). -/
structure CanonOp where
  path : String
  method : String
  operation_id : JValue
  summary : JValue
  description : JValue
  tags : JValue
  deprecated : JValue
  parameters : List CanonParam
  request_body : Option RequestBody
  responses : List (String × JValue × JValue)
  security : JValue

/-- The body of `get_operations` for one `(path, method)` pair with
operation object `op` inside path item `path_item`. -/
def mkCanonOp (spec : JValue) (path method : String) (path_item op : JValue) :
    CanonOp :=
  let opid :=
    match dget op "operationId" with
    | some v => if isTruthy v then v else JValue.str (synthOperationId method path)
    | none => JValue.str (synthOperationId method path)
  let parameters :=
    asArr (dgetD path_item "parameters" (.arr [])) ++
      asArr (dgetD op "parameters" (.arr []))
  { path := path,
    method := method,
    operation_id := opid,
    summary := dgetD op "summary" (.str ""),
    description := dgetD op "description" (.str ""),
    tags := dgetD op "tags" (.arr [.str "default"]),
    deprecated := dgetD op "deprecated" (.bool false),
    parameters := canonParamsList spec parameters,
    request_body := computeRequestBody spec op parameters,
    responses := canonResponses op,
    security := dgetD op "security" (.arr []) }

/-- The fixed HTTP method list both `get_spec_info` and `get_operations`
iterate over. -/
def httpMethods : List String :=
  ["get", "post", "put", "delete", "patch", "options", "head"]

/-- Embedding of `OpenAPIParser.get_operations`: walk `spec["paths"]`, skip path items
that are not dictionaries, and emit one canonical operation per declared
method, in path/method order. -/
def get_operations (spec : JValue) : List CanonOp :=
  (objFields (dgetD spec "paths" (.obj []))).flatMap (fun pp =>
    match pp.2 with
    | .obj _ =>
      httpMethods.filterMap (fun m =>
        (dget pp.2 m).map (fun op => mkCanonOp spec pp.1 m pp.2 op))
    | _ => [])

/-- The `operations` list accumulated by `get_spec_info` (lines 109-114):
one `(path, method, operation)` triple per declared method of each
dictionary-valued path item. -/
def specInfoOperations (spec : JValue) : List (String × String × JValue) :=
  (objFields (dgetD spec "paths" (.obj []))).flatMap (fun pp =>
    match pp.2 with
    | .obj _ =>
      httpMethods.filterMap (fun m =>
        (dget pp.2 m).map (fun op => (pp.1, m, op)))
    | _ => [])

/-- The `operation_count` field of the dictionary returned by
`get_spec_info` (line 167): `len(operations)`. -/
def specInfoOperationCount (spec : JValue) : Nat :=
  (specInfoOperations spec).length

/-! Embedding of `generator.py` (class `MCPServerGenerator`).

Only the pure parts the claims are about: `_sanitize_name` and
`_filter_operations`.  The generator's filter configuration (`self.tags`,
`self.path_filters`, `self.max_operations`) is gathered in `FilterConfig`;
`GeneratorError` becomes the `Except.error` branch. -/

/-- A character matched by the regex class `[\s\-]` of `_sanitize_name`
(ASCII whitespace or hyphen). -/
def isWsOrHyphen (c : Char) : Bool :=
  c == ' ' || c == '\t' || c == '\n' || c == '\x0b' || c == '\x0c' ||
    c == '\r' || c == '-'

/-- Python `re.sub(r"[\s\-]+", "_", name)` over the character list: replace each
maximal run of whitespace/hyphen characters with a single underscore.
The flag records whether the previous character was part of such a run. -/
def collapseWsRuns : Bool → List Char → List Char
  | _, [] => []
  | prevRun, c :: rest =>
    if isWsOrHyphen c then
      if prevRun then collapseWsRuns true rest
      else '_' :: collapseWsRuns true rest
    else c :: collapseWsRuns false rest

/-- A character matched by the regex class `[a-zA-Z0-9_]` (kept by
`re.sub(r"[^a-zA-Z0-9_]", "", name)`). -/
def isIdentChar (c : Char) : Bool :=
  ('a' ≤ c && c ≤ 'z') || ('A' ≤ c && c ≤ 'Z') || ('0' ≤ c && c ≤ '9') ||
    c == '_'

/-- Step `if name and name[0].isdigit(): name = "_" + name` of `_sanitize_name`:
prefix an underscore when the (nonempty) result starts with a digit. -/
def guardLeadingDigit (s2 : List Char) : List Char :=
  match s2 with
  | [] => ([] : List Char)
  | c :: cs => if c.isDigit then '_' :: c :: cs else c :: cs

/-- Embedding of `MCPServerGenerator._sanitize_name`: replace whitespace/hyphen runs with
underscores, drop every other non-identifier character, prefix an underscore
when the result starts with a digit, and fall back to `"mcp_server"` when
the result is empty. -/
def sanitizeName (name : String) : String :=
  let s1 := collapseWsRuns false name.data
  let s2 := s1.filter isIdentChar
  let s3 := guardLeadingDigit s2
  if s3.isEmpty then "mcp_server" else String.mk s3

/-- The filter-relevant generator options: `self.tags`,
`self.path_filters` (both default `[]`) and `self.max_operations`
(default `None`). -/
structure FilterConfig where
  tags : List String
  path_filters : List String
  max_operations : Option Nat

/-- Python `tag in op_tags` for a string `tag` and a JSON list `op_tags`:
some element is that exact string. -/
def jlistContainsStr (xs : List JValue) (t : String) : Bool :=
  xs.any (fun v =>
    match v with
    | .str s => s == t
    | _ => false)

/-- The `tag_match` computation of `_filter_operations` (lines 308-312):
the operation's tag list is truthy (non-empty) and intersects the filter
tags. -/
def tagMatchB (filterTags : List String) (opTags : JValue) : Bool :=
  isTruthy opTags && filterTags.any (fun t => jlistContainsStr (asArr opTags) t)

/-- One iteration of the `path_match` loop of `_filter_operations`
(lines 320-327): normalize the filter to start with `/`, then match iff the
operation path equals the filter or starts with the filter followed by `/`. -/
def pathMatchOne (pf path : String) : Bool :=
  let pf2 := if pyStartsWith pf "/" then pf else "/" ++ pf
  path == pf2 || pyStartsWith path (pf2 ++ "/")

/-- The full `path_match` loop (`break` on first hit). -/
def pathMatchB (pfs : List String) (path : String) : Bool :=
  pfs.any (fun pf => pathMatchOne pf path)

/-- The keep decision of the filtering loop of `_filter_operations`
(lines 303-343) for one operation.  The final `false` branch is unreachable
from `filterOperations`, which returns early when both filter lists are
empty. -/
def opKeep (cfg : FilterConfig) (op : CanonOp) : Bool :=
  let tag_match :=
    if !cfg.tags.isEmpty then tagMatchB cfg.tags op.tags else false
  let path_match :=
    if !cfg.path_filters.isEmpty then pathMatchB cfg.path_filters op.path
    else false
  if !cfg.tags.isEmpty && !cfg.path_filters.isEmpty then tag_match || path_match
  else if !cfg.tags.isEmpty then tag_match
  else if !cfg.path_filters.isEmpty then path_match
  else false

/-- The `GeneratorError` message raised before filtering (lines 294-298). -/
def capMsgNoFilter (n cap : Nat) : String :=
  "This specification contains " ++ toString n ++
    " operations, which exceeds the maximum of " ++ toString cap ++
    ". Use --tag or --path-filter to reduce the number of operations."

/-- The `GeneratorError` message raised after filtering (lines 347-351). -/
def capMsgAfterFilter (n cap : Nat) : String :=
  "After filtering, " ++ toString n ++
    " operations remain, which exceeds the maximum of " ++ toString cap ++
    ". Use --tag or --path-filter to further reduce the number of operations."

/-- Embedding of `MCPServerGenerator._filter_operations`: with no tag and no path
filters, pass the list through unchanged unless a cap is set and violated;
otherwise keep the operations selected by `opKeep` and check the cap on the
filtered count.  A raised `GeneratorError` is the `Except.error` branch. -/
def filterOperations (cfg : FilterConfig) (ops : List CanonOp) :
    Except String (List CanonOp) :=
  if cfg.tags.isEmpty && cfg.path_filters.isEmpty then
    match cfg.max_operations with
    | some cap =>
      if ops.length > cap then .error (capMsgNoFilter ops.length cap)
      else .ok ops
    | none => .ok ops
  else
    let filtered := ops.filter (opKeep cfg)
    match cfg.max_operations with
    | some cap =>
      if filtered.length > cap then .error (capMsgAfterFilter filtered.length cap)
      else .ok filtered
    | none => .ok filtered

/-! Helper lemmas. -/

/-- A dictionary with a found key is truthy (non-empty). -/
theorem isTruthy_of_dget_isSome (j : JValue) (k : String) (v : JValue)
    (h : dget j k = some v) : isTruthy j = true := by
  cases j with
  | obj fs =>
    cases fs with
    | nil => simp [dget, lookupField] at h
    | cons a rest => simp [isTruthy]
  | null => simp [dget] at h
  | bool b => simp [dget] at h
  | str s => simp [dget] at h
  | num n => simp [dget] at h
  | arr xs => simp [dget] at h

/-- Two `filterMap`s over the same list have the same length when the
functions succeed on exactly the same elements. -/
theorem length_filterMap_congr {α β γ : Type} (l : List α) (f : α → Option β)
    (g : α → Option γ) (h : ∀ a ∈ l, (f a).isSome = (g a).isSome) :
    (l.filterMap f).length = (l.filterMap g).length := by
  induction l with
  | nil => rfl
  | cons a rest ih =>
    have ha := h a (List.mem_cons_self a rest)
    have hrest : ∀ a2 ∈ rest, (f a2).isSome = (g a2).isSome :=
      fun a2 h2 => h a2 (List.mem_cons_of_mem a h2)
    cases hf : f a with
    | none =>
      cases hg : g a with
      | none => simp [List.filterMap_cons, hf, hg, ih hrest]
      | some y => rw [hf, hg] at ha; simp at ha
    | some x =>
      cases hg : g a with
      | none => rw [hf, hg] at ha; simp at ha
      | some y => simp [List.filterMap_cons, hf, hg, ih hrest]

/-- Two `flatMap`s over the same list have the same length when the
functions produce lists of the same length pointwise. -/
theorem length_flatMap_congr {α β γ : Type} (l : List α) (f : α → List β)
    (g : α → List γ) (h : ∀ a ∈ l, (f a).length = (g a).length) :
    (l.flatMap f).length = (l.flatMap g).length := by
  induction l with
  | nil => rfl
  | cons a rest ih =>
    simp only [List.flatMap_cons, List.length_append]
    rw [h a (List.mem_cons_self a rest),
      ih (fun a2 h2 => h a2 (List.mem_cons_of_mem a h2))]

/-- Skipping body parameters first does not change the canonical parameter
list: the loop ignores them anyway. -/
theorem canonParamsList_filter (spec : JValue) (params : List JValue) :
    canonParamsList spec params =
      canonParamsList spec (params.filter (fun p => !isBodyParam p)) := by
  induction params with
  | nil => rfl
  | cons p rest ih =>
    by_cases hb : isBodyParam p = true
    · simp [canonParamsList, List.filterMap_cons, List.filter_cons, hb] at ih ⊢
      exact ih
    · simp only [Bool.not_eq_true] at hb
      simp [canonParamsList, List.filterMap_cons, List.filter_cons, hb] at ih ⊢
      exact ih

/-! Claims. -/

/-- C2: for every document, the `operation_count` field computed by
`get_spec_info` equals the length of the list returned by
`get_operations`, before any filtering. -/
theorem operation_count_eq_operations_length (spec : JValue) :
    specInfoOperationCount spec = (get_operations spec).length := by
  unfold specInfoOperationCount specInfoOperations get_operations
  apply length_flatMap_congr
  intro pp _
  cases pp.2 with
  | obj fs =>
    apply length_filterMap_congr
    intro m _
    simp
  | null => rfl
  | bool b => rfl
  | str s => rfl
  | num n => rfl
  | arr xs => rfl

/-- C7: every merged parameter whose `in` field equals `"body"` is excluded
from the canonical operation's `parameters` sequence — the sequence produced
from the merged parameter list is the one produced from that list with all
body-style parameters removed. -/
theorem body_params_excluded_from_parameters (spec : JValue)
    (path method : String) (path_item op : JValue) :
    (mkCanonOp spec path method path_item op).parameters =
      canonParamsList spec
        (((asArr (dgetD path_item "parameters" (.arr []))) ++
            asArr (dgetD op "parameters" (.arr []))).filter
          (fun p => !isBodyParam p)) := by
  rw [← canonParamsList_filter]
  rfl

/-- When no merged parameter is body-style, the body-parameter loop leaves
`request_body` unchanged. -/
theorem overwriteFromBodyParams_no_body (spec : JValue) (params : List JValue)
    (rb : Option RequestBody) (h : ∀ q ∈ params, isBodyParam q = false) :
    overwriteFromBodyParams spec params rb = rb := by
  induction params with
  | nil => rfl
  | cons p rest ih =>
    have hp := h p (List.mem_cons_self p rest)
    simp [overwriteFromBodyParams, hp]
    exact ih (fun q hq => h q (List.mem_cons_of_mem p hq))

/-- The body-parameter loop returns the record built from the first
body-style parameter, whatever `request_body` held before. -/
theorem overwriteFromBodyParams_first_body (spec : JValue)
    (l1 l2 : List JValue) (p : JValue) (rb : Option RequestBody)
    (h1 : ∀ q ∈ l1, isBodyParam q = false) (hp : isBodyParam p = true) :
    overwriteFromBodyParams spec (l1 ++ p :: l2) rb =
      some (bodyParamRB spec p) := by
  induction l1 with
  | nil => simp [overwriteFromBodyParams, hp]
  | cons q rest ih =>
    have hq := h1 q (List.mem_cons_self q rest)
    simp [overwriteFromBodyParams, hq]
    exact ih (fun q2 hq2 => h1 q2 (List.mem_cons_of_mem q hq2))

/-- C1 (amended): the body-parameter loop runs after the 3.x `requestBody`
block and overwrites its result, so the first body-style merged parameter
supplies `request_body` whenever one exists, even when a 3.x `requestBody`
with `application/json` content is also declared; the `requestBody` schema
is used only when no body-style parameter is present, and `request_body` is
`None` when both are absent. -/
theorem request_body_precedence_amended (spec : JValue) (path method : String)
    (path_item op : JValue) :
    (∀ (l1 l2 : List JValue) (p : JValue),
      asArr (dgetD path_item "parameters" (.arr [])) ++
          asArr (dgetD op "parameters" (.arr [])) = l1 ++ p :: l2 →
      (∀ q ∈ l1, isBodyParam q = false) → isBodyParam p = true →
      (mkCanonOp spec path method path_item op).request_body =
        some (bodyParamRB spec p)) ∧
    ((∀ q ∈ asArr (dgetD path_item "parameters" (.arr [])) ++
          asArr (dgetD op "parameters" (.arr [])), isBodyParam q = false) →
      (mkCanonOp spec path method path_item op).request_body =
        requestBodyFromOp spec op) ∧
    ((∀ q ∈ asArr (dgetD path_item "parameters" (.arr [])) ++
          asArr (dgetD op "parameters" (.arr [])), isBodyParam q = false) →
      dget op "requestBody" = none →
      (mkCanonOp spec path method path_item op).request_body = none) := by
  refine ⟨?_, ?_, ?_⟩
  · intro l1 l2 p hsplit h1 hp
    show computeRequestBody spec op _ = _
    unfold computeRequestBody
    rw [hsplit]
    exact overwriteFromBodyParams_first_body spec l1 l2 p _ h1 hp
  · intro h
    show computeRequestBody spec op _ = _
    unfold computeRequestBody
    exact overwriteFromBodyParams_no_body spec _ _ h
  · intro h hrb
    show computeRequestBody spec op _ = _
    unfold computeRequestBody
    rw [overwriteFromBodyParams_no_body spec _ _ h]
    unfold requestBodyFromOp
    rw [hrb]

/-- A concrete operation declaring both a 3.x `requestBody` (json schema
titled `FromRequestBody`) and a 2.0-style body parameter (schema titled
`FromBodyParam`). -/
def c1Op : JValue :=
  .obj [
    ("operationId", .str "makePet"),
    ("requestBody", .obj [
      ("required", .bool true),
      ("content", .obj [
        ("application/json", .obj [
          ("schema", .obj [("type", .str "object"),
            ("title", .str "FromRequestBody")])])])]),
    ("parameters", .arr [
      .obj [("name", .str "payload"), ("in", .str "body"),
        ("schema", .obj [("type", .str "string"),
          ("title", .str "FromBodyParam")])]])]

/-- A concrete document whose single operation is `c1Op` at `POST /pets`. -/
def c1Spec : JValue :=
  .obj [("paths", .obj [("/pets", .obj [("post", c1Op)])])]

/-- C1 (counterexample): on `c1Spec` the operation declares a 3.x
`requestBody` with `application/json` content *and* a body-style parameter;
the claim says the `requestBody` schema wins, but the canonical operation's
`request_body` carries the body parameter's schema (`FromBodyParam`), not
the `requestBody` json schema (`FromRequestBody`), so the claimed
precedence is false. -/
theorem request_body_precedence_counterexample :
    (get_operations c1Spec).map (fun o => o.request_body) =
      [some ⟨.bool false, .str "",
        .obj [("type", .str "string"), ("title", .str "FromBodyParam")]⟩] ∧
    requestBodyFromOp c1Spec c1Op =
      some ⟨.bool true, .str "",
        .obj [("type", .str "object"), ("title", .str "FromRequestBody")]⟩ ∧
    (JValue.obj [("type", .str "string"), ("title", .str "FromBodyParam")]) ≠
      (JValue.obj [("type", .str "object"), ("title", .str "FromRequestBody")]) := by
  refine ⟨rfl, rfl, ?_⟩
  intro h
  injection h with h1
  injection h1 with h2 h3
  injection h2 with h4 h5
  injection h5 with h6
  simp at h6

/-- C1 (witness): the amended theorem applied to `c1Spec`'s operation: its
merged parameter list splits as `[] ++ bodyParam :: []`, so `request_body`
is the record built from the body parameter. -/
theorem request_body_precedence_amended_witness :
    (mkCanonOp c1Spec "/pets" "post" (.obj [("post", c1Op)]) c1Op).request_body =
      some (bodyParamRB c1Spec
        (.obj [("name", .str "payload"), ("in", .str "body"),
          ("schema", .obj [("type", .str "string"),
            ("title", .str "FromBodyParam")])])) :=
  (request_body_precedence_amended c1Spec "/pets" "post"
      (.obj [("post", c1Op)]) c1Op).1
    [] []
    (.obj [("name", .str "payload"), ("in", .str "body"),
      ("schema", .obj [("type", .str "string"),
        ("title", .str "FromBodyParam")])])
    rfl (by intro q hq; simp at hq) rfl

/-- C3: for a canonical parameter whose declared `schema` object contains a
`$ref` (and no parameter-level `$ref`), when the resolver maps that schema
to a referent carrying a `type` and no `oneOf`/`anyOf`, the emitted `type`
is exactly the referent's type — resolution happens before `type` is read,
so the `"string"` default fallback is never taken for such parameters. -/
theorem param_type_from_resolved_ref (spec param schema0 sref t : JValue)
    (r : String)
    (h1 : dget param "$ref" = none)
    (h2 : dget param "schema" = some schema0)
    (h3 : dget schema0 "$ref" = some (.str r))
    (h4 : resolveSchemaRef spec schema0 = sref)
    (h5 : dget sref "type" = some t)
    (h6 : dget sref "oneOf" = none)
    (h7 : dget sref "anyOf" = none) :
    (canonicalizeParam spec param).type = t := by
  have htruthy : isTruthy sref = true := isTruthy_of_dget_isSome sref "type" t h5
  unfold canonicalizeParam
  simp [hasKey, dgetD, h1, h2, h3, h4, h6, h7, htruthy, h5]

/-- A document whose schema table maps `Widget` to an integer schema. -/
def c3Spec : JValue :=
  .obj [("components", .obj [("schemas", .obj [
    ("Widget", .obj [("type", .str "integer"), ("format", .str "int64")])])])]

/-- A query parameter whose schema is a bare `$ref` to `Widget`. -/
def c3Param : JValue :=
  .obj [("name", .str "w"), ("in", .str "query"),
    ("schema", .obj [("$ref", .str "#/components/schemas/Widget")])]

/-- C3 (witness): applying the theorem to `c3Param` in `c3Spec`: the emitted
`type` is the referent's `"integer"`, not the `"string"` fallback. -/
theorem param_type_from_resolved_ref_witness :
    (canonicalizeParam c3Spec c3Param).type = .str "integer" :=
  param_type_from_resolved_ref c3Spec c3Param
    (.obj [("$ref", .str "#/components/schemas/Widget")])
    (.obj [("type", .str "integer"), ("format", .str "int64")])
    (.str "integer") "#/components/schemas/Widget"
    rfl rfl rfl rfl rfl rfl rfl

/-- C6: a path filter `pf` already normalized to start with `/` matches an
operation path exactly when the path equals `pf` or starts with `pf`
followed by `/` — proper path-prefix matching; in particular `/users`
matches `/users` and `/users/{id}` but not `/usersabc`. -/
theorem path_filter_proper_segment :
    (∀ pf path : String, pyStartsWith pf "/" = true →
      (pathMatchOne pf path = true ↔
        (path = pf ∨ (pf ++ "/").data.IsPrefix path.data))) ∧
    pathMatchOne "/users" "/users" = true ∧
    pathMatchOne "/users" "/users/{id}" = true ∧
    pathMatchOne "/users" "/usersabc" = false := by
  refine ⟨?_, by decide, by decide, by decide⟩
  intro pf path h
  unfold pathMatchOne
  rw [h]
  simp [pyStartsWith, List.isPrefixOf_iff_prefix]

/-- C6 (witness): the characterization applied to the filter `/users` and
the path `/users/42`. -/
theorem path_filter_proper_segment_witness :
    pathMatchOne "/users" "/users/42" = true :=
  (path_filter_proper_segment.1 "/users" "/users/42" (by decide)).mpr
    (Or.inr (by decide))

/-- C9: when an operation declares no `operationId`, the canonical
`operation_id` is synthesized deterministically as the upper-cased method,
an underscore, and the path with outer slashes stripped, `/` and `-`
replaced by `_` and braces removed; in particular `GET /test` yields
`GET_test`. -/
theorem synthesized_operation_id :
    (∀ (spec : JValue) (path method : String) (path_item op : JValue),
      dget op "operationId" = none →
      (mkCanonOp spec path method path_item op).operation_id =
        .str (synthOperationId method path)) ∧
    synthOperationId "get" "/test" = "GET_test" := by
  refine ⟨?_, by decide⟩
  intro spec path method path_item op h
  simp [mkCanonOp, h]

/-- C9 (witness): an empty operation object at `GET /test` receives the
synthesized id `GET_test`. -/
theorem synthesized_operation_id_witness :
    (mkCanonOp (.obj []) "/test" "get" (.obj [("get", .obj [])])
        (.obj [])).operation_id = .str "GET_test" := by
  rw [synthesized_operation_id.1 (.obj []) "/test" "get"
    (.obj [("get", .obj [])]) (.obj []) rfl]
  rw [synthesized_operation_id.2]

/-- The last two steps of `_sanitize_name` keep every character in the
identifier class and never leave a digit in front, provided every character
of the intermediate list is already in the identifier class. -/
theorem sanitize_final_props (s2 : List Char)
    (hall : ∀ x ∈ s2, isIdentChar x = true) :
    (if (guardLeadingDigit s2).isEmpty then "mcp_server"
        else String.mk (guardLeadingDigit s2)).data.all isIdentChar = true ∧
    (∀ c, (if (guardLeadingDigit s2).isEmpty then "mcp_server"
        else String.mk (guardLeadingDigit s2)).data.head? = some c →
      c.isDigit = false) := by
  cases s2 with
  | nil => exact ⟨by decide, by decide⟩
  | cons c cs =>
    have hc : isIdentChar c = true := hall c (List.mem_cons_self c cs)
    have hcs : ∀ x ∈ cs, isIdentChar x = true :=
      fun x hx => hall x (List.mem_cons_of_mem c hx)
    by_cases hd : c.isDigit = true
    · simp only [guardLeadingDigit, hd, if_true, List.isEmpty_cons, Bool.false_eq_true,
        if_false]
      refine ⟨?_, ?_⟩
      · simp only [String.data, List.all_cons, hc]
        simp [List.all_eq_true.mpr hcs]
        decide
      · intro c2 h2
        simp only [String.data, List.head?_cons, Option.some.injEq] at h2
        rw [← h2]
        decide
    · simp only [Bool.not_eq_true] at hd
      simp only [guardLeadingDigit, hd, Bool.false_eq_true, if_false, List.isEmpty_cons]
      refine ⟨?_, ?_⟩
      · simp only [String.data, List.all_cons, hc]
        simp [List.all_eq_true.mpr hcs]
      · intro c2 h2
        simp only [String.data, List.head?_cons, Option.some.injEq] at h2
        rw [← h2]
        exact hd

/-- C8: `_sanitize_name` satisfies its exact contracts on `"123-server"`,
`"my-server"` and `""`, and in general its output contains only
alphanumerics and underscores and never starts with a digit. -/
theorem sanitize_name_contract :
    sanitizeName "123-server" = "_123_server" ∧
    sanitizeName "my-server" = "my_server" ∧
    sanitizeName "" = "mcp_server" ∧
    (∀ name : String, (sanitizeName name).data.all isIdentChar = true ∧
      (∀ c, (sanitizeName name).data.head? = some c → c.isDigit = false)) := by
  refine ⟨by decide, by decide, by decide, ?_⟩
  intro name
  exact sanitize_final_props ((collapseWsRuns false name.data).filter isIdentChar)
    (fun x hx => (List.mem_filter.mp hx).2)

/-- C8 (witness): the general clauses applied to the concrete name
`"9 my api"`. -/
theorem sanitize_name_contract_witness :
    (sanitizeName "9 my api").data.all isIdentChar = true ∧
    ((sanitizeName "9 my api").data.head? = some '_' →
      ('_' : Char).isDigit = false) :=
  ⟨(sanitize_name_contract.2.2.2 "9 my api").1,
    fun h => (sanitize_name_contract.2.2.2 "9 my api").2 '_' h⟩

/-- When at least one filter list is non-empty, a successful
`_filter_operations` run returns exactly the operations kept by the
filtering loop. -/
theorem filterOperations_ok_eq_filter (cfg : FilterConfig)
    (ops res : List CanonOp) (hne : cfg.tags ≠ [] ∨ cfg.path_filters ≠ [])
    (h : filterOperations cfg ops = .ok res) :
    res = ops.filter (opKeep cfg) := by
  have hcond : (cfg.tags.isEmpty && cfg.path_filters.isEmpty) = false := by
    rcases hne with h1 | h1 <;>
      cases ht : cfg.tags <;> cases hp : cfg.path_filters <;> simp_all
  unfold filterOperations at h
  rw [hcond] at h
  simp only [Bool.false_eq_true, if_false] at h
  cases hm : cfg.max_operations with
  | none =>
    rw [hm] at h
    dsimp only at h
    exact (Except.ok.inj h).symm
  | some cap =>
    rw [hm] at h
    dsimp only at h
    by_cases hl : (ops.filter (opKeep cfg)).length > cap
    · rw [if_pos hl] at h
      cases h
    · rw [if_neg hl] at h
      exact (Except.ok.inj h).symm

/-- With both filter kinds supplied, the keep decision is the disjunction of
the tag match and the path match. -/
theorem opKeep_both (cfg : FilterConfig) (op : CanonOp)
    (h1 : cfg.tags ≠ []) (h2 : cfg.path_filters ≠ []) :
    opKeep cfg op =
      (tagMatchB cfg.tags op.tags || pathMatchB cfg.path_filters op.path) := by
  have ht : cfg.tags.isEmpty = false := by cases htt : cfg.tags <;> simp_all
  have hp : cfg.path_filters.isEmpty = false := by
    cases hpp : cfg.path_filters <;> simp_all
  unfold opKeep
  rw [ht, hp]
  simp

/-- With only tag filters supplied, the keep decision is the tag match. -/
theorem opKeep_tags_only (cfg : FilterConfig) (op : CanonOp)
    (h1 : cfg.tags ≠ []) (h2 : cfg.path_filters = []) :
    opKeep cfg op = tagMatchB cfg.tags op.tags := by
  have ht : cfg.tags.isEmpty = false := by cases htt : cfg.tags <;> simp_all
  unfold opKeep
  rw [ht, h2]
  simp

/-- With only path filters supplied, the keep decision is the path match. -/
theorem opKeep_paths_only (cfg : FilterConfig) (op : CanonOp)
    (h1 : cfg.tags = []) (h2 : cfg.path_filters ≠ []) :
    opKeep cfg op = pathMatchB cfg.path_filters op.path := by
  have hp : cfg.path_filters.isEmpty = false := by
    cases hpp : cfg.path_filters <;> simp_all
  unfold opKeep
  rw [h1, hp]
  simp

/-- C4: `_filter_operations` raises `GeneratorError` exactly when a cap is
set and the relevant count exceeds it — the unfiltered count when no tag or
path filters are supplied (otherwise the list passes through unchanged), and
the post-filter count when filters are supplied. -/
theorem filter_operations_cap_exact (cfg : FilterConfig) (ops : List CanonOp) :
    (cfg.tags = [] → cfg.path_filters = [] →
      (∀ cap, cfg.max_operations = some cap → ops.length > cap →
        filterOperations cfg ops = .error (capMsgNoFilter ops.length cap)) ∧
      ((∀ cap, cfg.max_operations = some cap → ops.length ≤ cap) →
        filterOperations cfg ops = .ok ops)) ∧
    ((cfg.tags ≠ [] ∨ cfg.path_filters ≠ []) →
      (∀ cap, cfg.max_operations = some cap →
        (ops.filter (opKeep cfg)).length > cap →
        filterOperations cfg ops =
          .error (capMsgAfterFilter (ops.filter (opKeep cfg)).length cap)) ∧
      ((∀ cap, cfg.max_operations = some cap →
          (ops.filter (opKeep cfg)).length ≤ cap) →
        filterOperations cfg ops = .ok (ops.filter (opKeep cfg)))) := by
  constructor
  · intro h1 h2
    constructor
    · intro cap hcap hlen
      unfold filterOperations
      simp [h1, h2, hcap, hlen]
    · intro hle
      unfold filterOperations
      cases hm : cfg.max_operations with
      | none => simp [h1, h2]
      | some cap =>
        have := hle cap hm
        simp [h1, h2, Nat.not_lt.mpr this]
  · intro hne
    have hcond : (cfg.tags.isEmpty && cfg.path_filters.isEmpty) = false := by
      rcases hne with h1 | h1 <;>
        cases ht : cfg.tags <;> cases hp : cfg.path_filters <;> simp_all
    constructor
    · intro cap hcap hlen
      unfold filterOperations
      rw [hcond]
      simp only [Bool.false_eq_true, if_false, hcap]
      rw [if_pos hlen]
    · intro hle
      unfold filterOperations
      rw [hcond]
      simp only [Bool.false_eq_true, if_false]
      cases hm : cfg.max_operations with
      | none => rfl
      | some cap =>
        dsimp only
        rw [if_neg (Nat.not_lt.mpr (hle cap hm))]

/-- C5: when both filter kinds are supplied, an operation is in the output
exactly when it was in the input and matches a tag filter *or* a path
filter (OR, not AND); with only one filter kind, only that kind's match is
required. -/
theorem filter_operations_or_semantics (cfg : FilterConfig)
    (ops res : List CanonOp) (op : CanonOp)
    (hok : filterOperations cfg ops = .ok res) :
    (cfg.tags ≠ [] → cfg.path_filters ≠ [] →
      (op ∈ res ↔ op ∈ ops ∧
        (tagMatchB cfg.tags op.tags ||
          pathMatchB cfg.path_filters op.path) = true)) ∧
    (cfg.tags ≠ [] → cfg.path_filters = [] →
      (op ∈ res ↔ op ∈ ops ∧ tagMatchB cfg.tags op.tags = true)) ∧
    (cfg.tags = [] → cfg.path_filters ≠ [] →
      (op ∈ res ↔ op ∈ ops ∧ pathMatchB cfg.path_filters op.path = true)) := by
  refine ⟨?_, ?_, ?_⟩
  · intro h1 h2
    rw [filterOperations_ok_eq_filter cfg ops res (Or.inl h1) hok,
      List.mem_filter, opKeep_both cfg op h1 h2]
  · intro h1 h2
    rw [filterOperations_ok_eq_filter cfg ops res (Or.inl h1) hok,
      List.mem_filter, opKeep_tags_only cfg op h1 h2]
  · intro h1 h2
    rw [filterOperations_ok_eq_filter cfg ops res (Or.inr h2) hok,
      List.mem_filter, opKeep_paths_only cfg op h1 h2]

/-- C10: an explicitly empty `tags` list survives normalization as an empty
canonical tag sequence (the `["default"]` fallback fires only when the
`tags` key is absent), and an operation with empty tags never matches a tag
filter, so tag-only filtering always excludes it. -/
theorem empty_tags_excluded_by_tag_filter :
    (∀ (spec : JValue) (path method : String) (path_item op : JValue),
      dget op "tags" = some (.arr []) →
      (mkCanonOp spec path method path_item op).tags = .arr []) ∧
    (∀ (spec : JValue) (path method : String) (path_item op : JValue),
      dget op "tags" = none →
      (mkCanonOp spec path method path_item op).tags = .arr [.str "default"]) ∧
    (∀ ft : List String, tagMatchB ft (.arr []) = false) ∧
    (∀ (cfg : FilterConfig) (ops res : List CanonOp) (cop : CanonOp),
      cfg.tags ≠ [] → cfg.path_filters = [] → cop.tags = .arr [] →
      filterOperations cfg ops = .ok res → cop ∉ res) := by
  refine ⟨?_, ?_, ?_, ?_⟩
  · intro spec path method path_item op h
    simp [mkCanonOp, dgetD, h]
  · intro spec path method path_item op h
    simp [mkCanonOp, dgetD, h]
  · intro ft
    simp [tagMatchB, isTruthy]
  · intro cfg ops res cop h1 h2 htags hok hm
    rw [filterOperations_ok_eq_filter cfg ops res (Or.inl h1) hok,
      List.mem_filter, opKeep_tags_only cfg cop h1 h2] at hm
    rw [htags] at hm
    simp [tagMatchB, isTruthy] at hm

/-- A canonical operation tagged `pets` at `/order` (filtering examples). -/
def opPets : CanonOp :=
  { path := "/order", method := "get", operation_id := .str "listPets",
    summary := .str "", description := .str "", tags := .arr [.str "pets"],
    deprecated := .bool false, parameters := [], request_body := none,
    responses := [], security := .arr [] }

/-- A canonical operation tagged `other` at `/order` (filtering examples). -/
def opOther : CanonOp :=
  { path := "/order", method := "get", operation_id := .str "listOther",
    summary := .str "", description := .str "", tags := .arr [.str "other"],
    deprecated := .bool false, parameters := [], request_body := none,
    responses := [], security := .arr [] }

/-- A canonical operation with an explicitly empty tag list. -/
def opNoTags : CanonOp :=
  { path := "/plain", method := "get", operation_id := .str "plain",
    summary := .str "", description := .str "", tags := .arr [],
    deprecated := .bool false, parameters := [], request_body := none,
    responses := [], security := .arr [] }

/-- Filtering a replicated list keeps everything when the predicate accepts
the element. -/
theorem filter_replicate_pos {α : Type} (n : Nat) (a : α) (p : α → Bool)
    (h : p a = true) : (List.replicate n a).filter p = List.replicate n a := by
  induction n with
  | zero => rfl
  | succ k ih => simp [List.replicate_succ, List.filter_cons, h, ih]

/-- Filtering a replicated list drops everything when the predicate rejects
the element. -/
theorem filter_replicate_neg {α : Type} (n : Nat) (a : α) (p : α → Bool)
    (h : p a = false) : (List.replicate n a).filter p = [] := by
  induction n with
  | zero => rfl
  | succ k ih => simp [List.replicate_succ, List.filter_cons, h, ih]

/-- The spec's 150-operation example: 80 operations tagged `pets` and 70
tagged `other`. -/
def c4Ops : List CanonOp :=
  List.replicate 80 opPets ++ List.replicate 70 opOther

/-- C4 (witness): 150 operations with no filters and a cap of 100 raise the
pre-filter `GeneratorError`; the same 150 with tag filter `pets` narrow to
80 and succeed. -/
theorem filter_operations_cap_exact_witness :
    filterOperations ⟨[], [], some 100⟩ c4Ops =
      .error (capMsgNoFilter 150 100) ∧
    filterOperations ⟨["pets"], [], some 100⟩ c4Ops =
      .ok (List.replicate 80 opPets) := by
  have hlen : c4Ops.length = 150 := by
    simp [c4Ops]
  have hfilter :
      c4Ops.filter (opKeep ⟨["pets"], [], some 100⟩) =
        List.replicate 80 opPets := by
    unfold c4Ops
    rw [List.filter_append,
      filter_replicate_pos 80 opPets _ (by decide),
      filter_replicate_neg 70 opOther _ (by decide)]
    simp
  constructor
  · have h := ((filter_operations_cap_exact ⟨[], [], some 100⟩ c4Ops).1
      rfl rfl).1 100 rfl (by rw [hlen]; decide)
    rw [hlen] at h
    exact h
  · have h := ((filter_operations_cap_exact ⟨["pets"], [], some 100⟩ c4Ops).2
      (Or.inl (by decide))).2
      (by intro cap hcap
          cases hcap
          rw [hfilter]
          decide)
    rw [hfilter] at h
    exact h

/-- C5 (witness): with tag filter `pets` and path filter `/store` together,
the operation tagged `pets` at `/order` is kept (OR semantics) and the one
tagged `other` at `/order` is dropped. -/
theorem filter_operations_or_semantics_witness :
    opPets ∈ ([opPets] : List CanonOp) ∧
    opOther ∉ ([opPets] : List CanonOp) := by
  have hok : filterOperations ⟨["pets"], ["/store"], none⟩ [opPets, opOther] =
      .ok [opPets] := rfl
  constructor
  · exact ((filter_operations_or_semantics ⟨["pets"], ["/store"], none⟩
      [opPets, opOther] [opPets] opPets hok).1 (by decide) (by decide)).mpr
      ⟨by simp, by decide⟩
  · intro hm
    have h := ((filter_operations_or_semantics ⟨["pets"], ["/store"], none⟩
      [opPets, opOther] [opPets] opOther hok).1 (by decide) (by decide)).mp hm
    exact absurd h.2 (by decide)

/-- C10 (witness): the theorem applied to a concrete operation with
`tags: []` (its canonical tags are empty) and to a concrete tag-only
filtering run (the empty-tagged operation is absent from the output). -/
theorem empty_tags_excluded_by_tag_filter_witness :
    (mkCanonOp (.obj []) "/plain" "get" (.obj [])
        (.obj [("tags", .arr [])])).tags = .arr [] ∧
    opNoTags ∉ ([] : List CanonOp) := by
  constructor
  · exact empty_tags_excluded_by_tag_filter.1 (.obj []) "/plain" "get"
      (.obj []) (.obj [("tags", .arr [])]) rfl
  · exact empty_tags_excluded_by_tag_filter.2.2.2 ⟨["pets"], [], none⟩
      [opNoTags] [] opNoTags (by decide) rfl rfl rfl
